import Mathlib

/-!
Verification of the restaurant front-of-house dashboard
(`risto_gestionale_solo_front`): a shallow embedding of the pure parts of
the room-layout editor, the zone editor, the schedule-slot generation and
the configuration gating, together with theorems settling the frozen
claims about them.

Grid coordinates, zone sizes and minute counts are natural numbers: every
such quantity in the program is produced by grid loops, clamped numeric
inputs or `HH:mm` parsing and is a non-negative integer.
-/

namespace Risto

/-! ## Data model (src/types/index.ts) -/

/-- The `TipoZona` (TipoZona.java / src/types/index.ts). -/
inductive TipoZona
  | SPAZIO_VIVIBILE
  | SPAZIO_NON_VIVIBILE
  deriving DecidableEq, Repr

/-- The `Turno` (Turno.java / src/types/index.ts). -/
inductive Turno
  | PRANZO
  | CENA
  deriving DecidableEq, Repr

/-- The `TableStatus` / `StatoTavolo` (src/types/index.ts). -/
inductive TableStatus
  | LIBERO
  | RISERVATO
  | OCCUPATO
  deriving DecidableEq, Repr

/-- The `WorkingDayType` (src/types/index.ts). -/
inductive WorkingDayType
  | WEEKDAY
  | SATURDAY
  | SUNDAY
  | SPECIAL
  deriving DecidableEq, Repr

/-- The `ZonaSala` (src/types/index.ts): an axis-aligned rectangle tagged with
a zone type.  Field order follows the TypeScript interface. -/
structure ZonaSala where
  x : Nat
  y : Nat
  tipo : TipoZona
  base : Nat
  altezza : Nat
  deriving DecidableEq, Repr

/-- The `Sala` (src/types/index.ts). -/
structure Sala where
  nome : String
  zone : List ZonaSala
  deriving DecidableEq, Repr

/-- The `Tavolo` together with the frontend-only `nomePrenotazione` field of
`UILayoutTavolo` (src/components/RoomLayoutEditor.tsx): the table records
the layout editor works with. -/
structure Tavolo where
  x : Nat
  y : Nat
  stato : TableStatus
  nomePrenotazione : Option String
  deriving DecidableEq, Repr

/-- The `Reservation` / `Prenotazione` (src/types/index.ts). -/
structure Reservation where
  nome : String
  numPersone : Nat
  date : String
  orario : String
  numeroTelefono : Option String
  nota : Option String
  deriving DecidableEq, Repr

/-- The `WorkingDay` (src/types/index.ts): `g1`/`g2` are the two shift flags,
`a1/c1` and `a2/c2` the open/close times (`HH:mm`), `data` the date of a
SPECIAL entry. -/
structure WorkingDay where
  type : WorkingDayType
  g1 : Bool
  g2 : Bool
  a1 : Option String
  c1 : Option String
  a2 : Option String
  c2 : Option String
  data : Option String
  deriving DecidableEq, Repr

/-! ## Zone classification (RoomLayoutEditor.tsx `getCellTipoZona`,
EditZonesDialog.tsx `getCellTipoZona`; both bodies are identical). -/

/-- The `inside` test of `getCellTipoZona`:
`x >= z.x && x < z.x + z.base && y >= z.y && y < z.y + z.altezza`. -/
def zoneContains (z : ZonaSala) (x y : Nat) : Bool :=
  decide (z.x ≤ x) && decide (x < z.x + z.base) &&
  decide (z.y ≤ y) && decide (y < z.y + z.altezza)

/-- The `for`-loop of `getCellTipoZona` with its `foundVivibile` flag:
short-circuits to `SPAZIO_NON_VIVIBILE` on the first containing
non-livable zone, otherwise records whether some containing zone is
livable. -/
def getCellTipoZonaGo (x y : Nat) : List ZonaSala → Bool → Option TipoZona
  | [], foundVivibile =>
      if foundVivibile then some TipoZona.SPAZIO_VIVIBILE else none
  | z :: rest, foundVivibile =>
      if zoneContains z x y then
        if z.tipo = TipoZona.SPAZIO_NON_VIVIBILE then
          some TipoZona.SPAZIO_NON_VIVIBILE
        else
          getCellTipoZonaGo x y rest
            (foundVivibile || decide (z.tipo = TipoZona.SPAZIO_VIVIBILE))
      else
        getCellTipoZonaGo x y rest foundVivibile

/-- The `getCellTipoZona` (RoomLayoutEditor.tsx lines 113-126 /
EditZonesDialog.tsx lines 64-82). -/
def getCellTipoZona (zones : List ZonaSala) (x y : Nat) : Option TipoZona :=
  getCellTipoZonaGo x y zones false

/-- Loop invariant of `getCellTipoZonaGo`, non-livable case: if some zone
in the remainder contains the cell and is non-livable, the loop answers
`SPAZIO_NON_VIVIBILE` whatever the flag. -/
theorem getCellTipoZonaGo_nonVivibile (x y : Nat) (zones : List ZonaSala)
    (found : Bool)
    (h : ∃ z ∈ zones, zoneContains z x y = true ∧
      z.tipo = TipoZona.SPAZIO_NON_VIVIBILE) :
    getCellTipoZonaGo x y zones found = some TipoZona.SPAZIO_NON_VIVIBILE := by
  induction zones generalizing found with
  | nil => simp at h
  | cons z rest ih =>
      obtain ⟨w, hw, hc, ht⟩ := h
      rw [getCellTipoZonaGo]
      by_cases hin : zoneContains z x y = true
      · rw [if_pos hin]
        by_cases hz : z.tipo = TipoZona.SPAZIO_NON_VIVIBILE
        · rw [if_pos hz]
        · rw [if_neg hz]
          apply ih
          rcases List.mem_cons.mp hw with rfl | hmem
          · exact absurd ht hz
          · exact ⟨w, hmem, hc, ht⟩
      · rw [if_neg hin]
        apply ih
        rcases List.mem_cons.mp hw with rfl | hmem
        · exact absurd hc hin
        · exact ⟨w, hmem, hc, ht⟩

/-- Loop invariant of `getCellTipoZonaGo`, livable case: if no containing
zone in the remainder is non-livable, and the flag is set or some
containing zone is livable, the loop answers `SPAZIO_VIVIBILE`. -/
theorem getCellTipoZonaGo_vivibile (x y : Nat) (zones : List ZonaSala)
    (found : Bool)
    (hN : ∀ z ∈ zones, zoneContains z x y = true →
      z.tipo ≠ TipoZona.SPAZIO_NON_VIVIBILE)
    (h : found = true ∨ ∃ z ∈ zones, zoneContains z x y = true ∧
      z.tipo = TipoZona.SPAZIO_VIVIBILE) :
    getCellTipoZonaGo x y zones found = some TipoZona.SPAZIO_VIVIBILE := by
  induction zones generalizing found with
  | nil =>
      rcases h with hf | ⟨w, hw, _⟩
      · rw [hf]; rfl
      · simp at hw
  | cons z rest ih =>
      rw [getCellTipoZonaGo]
      by_cases hin : zoneContains z x y = true
      · rw [if_pos hin,
          if_neg (hN z (List.mem_cons_self z rest) hin)]
        apply ih
        · exact fun w hw => hN w (List.mem_cons_of_mem z hw)
        · rcases h with hf | ⟨w, hw, hc, ht⟩
          · left; rw [hf]; rfl
          · rcases List.mem_cons.mp hw with rfl | hmem
            · left; rw [ht]; simp
            · right; exact ⟨w, hmem, hc, ht⟩
      · rw [if_neg hin]
        apply ih
        · exact fun w hw => hN w (List.mem_cons_of_mem z hw)
        · rcases h with hf | ⟨w, hw, hc, ht⟩
          · exact Or.inl hf
          · rcases List.mem_cons.mp hw with rfl | hmem
            · exact absurd hc hin
            · exact Or.inr ⟨w, hmem, hc, ht⟩

/-- Loop invariant of `getCellTipoZonaGo`, unclassified case: if no zone
in the remainder contains the cell and the flag is clear, the loop
answers `none`. -/
theorem getCellTipoZonaGo_none (x y : Nat) (zones : List ZonaSala)
    (h : ∀ z ∈ zones, zoneContains z x y = false) :
    getCellTipoZonaGo x y zones false = none := by
  induction zones with
  | nil => rfl
  | cons z rest ih =>
      rw [getCellTipoZonaGo]
      rw [if_neg (by simp [h z (List.mem_cons_self z rest)])]
      exact ih fun w hw => h w (List.mem_cons_of_mem z hw)

/-- C1.  Zone classification is non-livable-dominant with half-open
containment: if some `SPAZIO_NON_VIVIBILE` zone contains the cell
(`x ∈ [z.x, z.x + z.base)`, `y ∈ [z.y, z.y + z.altezza)`), the
classifier returns `SPAZIO_NON_VIVIBILE` regardless of livable zones
also covering it; otherwise, if some `SPAZIO_VIVIBILE` zone contains the
cell it returns `SPAZIO_VIVIBILE`; otherwise it returns `none`. -/
theorem zone_classification_nonlivable_dominant
    (zones : List ZonaSala) (x y : Nat) :
    ((∃ z ∈ zones, (z.x ≤ x ∧ x < z.x + z.base ∧ z.y ≤ y ∧ y < z.y + z.altezza) ∧
        z.tipo = TipoZona.SPAZIO_NON_VIVIBILE) →
      getCellTipoZona zones x y = some TipoZona.SPAZIO_NON_VIVIBILE) ∧
    ((¬ ∃ z ∈ zones, (z.x ≤ x ∧ x < z.x + z.base ∧ z.y ≤ y ∧ y < z.y + z.altezza) ∧
        z.tipo = TipoZona.SPAZIO_NON_VIVIBILE) →
      (∃ z ∈ zones, (z.x ≤ x ∧ x < z.x + z.base ∧ z.y ≤ y ∧ y < z.y + z.altezza) ∧
        z.tipo = TipoZona.SPAZIO_VIVIBILE) →
      getCellTipoZona zones x y = some TipoZona.SPAZIO_VIVIBILE) ∧
    ((∀ z ∈ zones, ¬ (z.x ≤ x ∧ x < z.x + z.base ∧ z.y ≤ y ∧ y < z.y + z.altezza)) →
      getCellTipoZona zones x y = none) := by
  have hcont : ∀ z : ZonaSala,
      zoneContains z x y = true ↔
      (z.x ≤ x ∧ x < z.x + z.base ∧ z.y ≤ y ∧ y < z.y + z.altezza) := by
    intro z
    simp [zoneContains, and_assoc]
  refine ⟨?_, ?_, ?_⟩
  · rintro ⟨z, hz, hc, ht⟩
    exact getCellTipoZonaGo_nonVivibile x y zones false
      ⟨z, hz, (hcont z).mpr hc, ht⟩
  · intro hN ⟨z, hz, hc, ht⟩
    apply getCellTipoZonaGo_vivibile x y zones false
    · intro w hw hwc hwt
      exact hN ⟨w, hw, (hcont w).mp hwc, hwt⟩
    · exact Or.inr ⟨z, hz, (hcont z).mpr hc, ht⟩
  · intro h
    apply getCellTipoZonaGo_none x y zones
    intro z hz
    have := h z hz
    rw [← hcont z] at this
    simpa using this

/-- Witness for C1 at a concrete overlap: zones
`[(0,0,VIVIBILE,4,4), (1,1,NON_VIVIBILE,2,2)]` classify cell `(2,2)` as
non-livable (covered by both), cell `(0,0)` as livable, and cell `(9,9)`
as unclassified. -/
theorem zone_classification_witness :
    getCellTipoZona
      [⟨0, 0, TipoZona.SPAZIO_VIVIBILE, 4, 4⟩,
       ⟨1, 1, TipoZona.SPAZIO_NON_VIVIBILE, 2, 2⟩] 2 2 =
      some TipoZona.SPAZIO_NON_VIVIBILE ∧
    getCellTipoZona
      [⟨0, 0, TipoZona.SPAZIO_VIVIBILE, 4, 4⟩,
       ⟨1, 1, TipoZona.SPAZIO_NON_VIVIBILE, 2, 2⟩] 0 0 =
      some TipoZona.SPAZIO_VIVIBILE ∧
    getCellTipoZona
      [⟨0, 0, TipoZona.SPAZIO_VIVIBILE, 4, 4⟩,
       ⟨1, 1, TipoZona.SPAZIO_NON_VIVIBILE, 2, 2⟩] 9 9 = none := by
  refine ⟨?_, ?_, ?_⟩
  · exact (zone_classification_nonlivable_dominant _ 2 2).1
      ⟨⟨1, 1, TipoZona.SPAZIO_NON_VIVIBILE, 2, 2⟩, by decide, by decide, rfl⟩
  · exact (zone_classification_nonlivable_dominant _ 0 0).2.1
      (by decide)
      ⟨⟨0, 0, TipoZona.SPAZIO_VIVIBILE, 4, 4⟩, by decide, by decide, rfl⟩
  · exact (zone_classification_nonlivable_dominant _ 9 9).2.2 (by decide)

/-! ## Schedule slot generation (src/pages/NewReservation.tsx).

The page manipulates times as JavaScript strings.  `jsSplit` models
`String.prototype.split` with a single-character separator, and
`jsStrNat` models `Number(s)` on the fragment of strings this page feeds
it: the empty string (`Number("") === 0`) and non-negative decimal digit
strings; every other string is treated as `NaN`, modelled as `none`. -/

/-- Model of `String.prototype.split(sep)` on characters: splits at every
occurrence of `sep`, keeping empty fields (JS semantics). -/
def splitAux (sep : Char) : List Char → List Char → List (List Char)
  | [], acc => [acc.reverse]
  | c :: cs, acc =>
      if c = sep then acc.reverse :: splitAux sep cs []
      else splitAux sep cs (c :: acc)

/-- Model of `s.split(sep)` for a one-character separator. -/
def jsSplit (sep : Char) (s : String) : List String :=
  (splitAux sep s.data []).map (fun cs => ⟨cs⟩)

/-- Decimal value of a non-empty all-digit character list, `none`
otherwise. -/
def digitsToNat (cs : List Char) : Option Nat :=
  if cs.all (fun c => c.isDigit) then
    some (cs.foldl (fun n c => n * 10 + (c.toNat - Char.toNat '0')) 0)
  else none

/-- Model of `Number(s)` restricted to the digit-string fragment used by the time
fields: `Number("") === 0`; a non-empty all-digit string is its decimal
value; anything else (`NaN` and the unused fractional/signed/hex forms)
is `none`. -/
def jsStrNat (s : String) : Option Nat :=
  match s.data with
  | [] => some 0
  | cs => digitsToNat cs

/-- The `parseTimeToMinutes` (NewReservation.tsx lines 46-51):
`time.split(':').map(Number)` destructured into `[h, m]`; `null` if the
input is missing or either component is not a finite number, otherwise
`h * 60 + m`. -/
def parseTimeToMinutes (time : Option String) : Option Nat :=
  match time with
  | none => none
  | some t =>
      match (jsSplit ':' t).head?.bind jsStrNat,
            ((jsSplit ':' t).drop 1).head?.bind jsStrNat with
      | some h, some m => some (h * 60 + m)
      | _, _ => none

/-- Model of `String(n).padStart(2, '0')`. -/
def padStart2 (s : String) : String :=
  if s.length ≥ 2 then s
  else if s.length = 1 then "0" ++ s
  else "00"

/-- The `formatMinutes` (NewReservation.tsx lines 53-57). -/
def formatMinutes (mins : Nat) : String :=
  padStart2 (toString (mins / 60)) ++ ":" ++ padStart2 (toString (mins % 60))

/-- The `for (current = start; current <= end; current += 15)` loop of
`buildSlotsFromWindow`, written with an explicit iteration budget so the
recursion is structural; `slotMinutes` below instantiates the budget with
a bound that is never reached before `current` passes `end`, so the two
are extensionally the loop. -/
def slotMinutesFuel : Nat → Nat → Nat → List Nat
  | 0, _, _ => []
  | fuel + 1, current, stop =>
      if current ≤ stop then current :: slotMinutesFuel fuel (current + 15) stop
      else []

/-- The minute values emitted by the `buildSlotsFromWindow` loop. -/
def slotMinutes (start stop : Nat) : List Nat :=
  slotMinutesFuel (stop + 1 - start) start stop

/-- The `buildSlotsFromWindow` (NewReservation.tsx lines 59-69): empty when
either endpoint is missing/unparsable or `start > end`, otherwise one
formatted slot every 15 minutes from `start` while `≤ end`. -/
def buildSlotsFromWindow (start stop : Option String) : List String :=
  match parseTimeToMinutes start, parseTimeToMinutes stop with
  | some startMinutes, some endMinutes =>
      if startMinutes > endMinutes then []
      else (slotMinutes startMinutes endMinutes).map formatMinutes
  | _, _ => []

/-- The loop emits exactly the arithmetic progression
`start, start + 15, …` while it stays `≤ stop`, provided the iteration
budget covers the distance. -/
theorem slotMinutesFuel_spec (fuel : Nat) :
    ∀ current stop, current ≤ stop → (stop - current) / 15 + 1 ≤ fuel →
      slotMinutesFuel fuel current stop =
        (List.range ((stop - current) / 15 + 1)).map (fun i => current + 15 * i) := by
  have key : ∀ b n : Nat,
      b :: (List.range n).map (fun i => b + 15 + 15 * i) =
        (List.range (n + 1)).map (fun i => b + 15 * i) := by
    intro b n
    rw [List.range_succ_eq_map]
    simp only [List.map_cons, Nat.mul_zero, Nat.add_zero, List.map_map]
    refine congrArg (List.cons b) ?_
    apply List.map_congr_left
    intro i _
    simp only [Function.comp_apply, Nat.succ_eq_add_one]
    omega
  induction fuel with
  | zero => intro current stop _ hfuel; omega
  | succ fuel ih =>
      intro current stop hle hfuel
      rw [slotMinutesFuel, if_pos hle]
      by_cases hnext : current + 15 ≤ stop
      · have hdiv : (stop - current) / 15 + 1 =
            ((stop - (current + 15)) / 15 + 1) + 1 := by
          omega
        rw [ih (current + 15) stop hnext (by omega), hdiv]
        exact key current ((stop - (current + 15)) / 15 + 1)
      · have hstop : (stop - current) / 15 = 0 := by omega
        have hrest : slotMinutesFuel fuel (current + 15) stop = [] := by
          cases fuel with
          | zero => rfl
          | succ f => rw [slotMinutesFuel, if_neg (by omega)]
        rw [hrest, hstop]
        rfl

/-- Closed form of `slotMinutes`. -/
theorem slotMinutes_eq (start stop : Nat) (h : start ≤ stop) :
    slotMinutes start stop =
      (List.range ((stop - start) / 15 + 1)).map (fun i => start + 15 * i) :=
  slotMinutesFuel_spec (stop + 1 - start) start stop h (by omega)

/-- C2.  For a shift window whose open and close times parse to
`startMin ≤ endMin` minutes, `buildSlotsFromWindow` returns exactly
`(endMin - startMin) / 15 + 1` slots, the `i`-th at `startMin + 15 * i`
minutes (so consecutive slots are 15 minutes apart), the first at the
open time and every slot at most the close time; in particular
12:00-15:00 yields the 13 slots 12:00, 12:15, …, 15:00. -/
theorem buildSlotsFromWindow_spec (a c : String) (startMin endMin : Nat)
    (ha : parseTimeToMinutes (some a) = some startMin)
    (hc : parseTimeToMinutes (some c) = some endMin)
    (hle : startMin ≤ endMin) :
    buildSlotsFromWindow (some a) (some c) =
      (List.range ((endMin - startMin) / 15 + 1)).map
        (fun i => formatMinutes (startMin + 15 * i)) ∧
    (buildSlotsFromWindow (some a) (some c)).length =
      (endMin - startMin) / 15 + 1 ∧
    (∀ i, i < (endMin - startMin) / 15 + 1 →
      (slotMinutes startMin endMin)[i]? = some (startMin + 15 * i)) ∧
    (∀ m ∈ slotMinutes startMin endMin, startMin ≤ m ∧ m ≤ endMin) ∧
    (buildSlotsFromWindow (some a) (some c)).head? =
      some (formatMinutes startMin) ∧
    (a = formatMinutes startMin →
      (buildSlotsFromWindow (some a) (some c)).head? = some a) ∧
    buildSlotsFromWindow (some "12:00") (some "15:00") =
      ["12:00", "12:15", "12:30", "12:45", "13:00", "13:15", "13:30",
       "13:45", "14:00", "14:15", "14:30", "14:45", "15:00"] := by
  have hbuild : buildSlotsFromWindow (some a) (some c) =
      (slotMinutes startMin endMin).map formatMinutes := by
    simp only [buildSlotsFromWindow, ha, hc]
    rw [if_neg (by omega)]
  have hslots := slotMinutes_eq startMin endMin hle
  have hmain : buildSlotsFromWindow (some a) (some c) =
      (List.range ((endMin - startMin) / 15 + 1)).map
        (fun i => formatMinutes (startMin + 15 * i)) := by
    rw [hbuild, hslots, List.map_map]
    rfl
  have hget : ∀ i, i < (endMin - startMin) / 15 + 1 →
      (slotMinutes startMin endMin)[i]? = some (startMin + 15 * i) := by
    intro i hi
    rw [hslots, List.getElem?_map, List.getElem?_range hi]
    rfl
  have hhead : (buildSlotsFromWindow (some a) (some c)).head? =
      some (formatMinutes startMin) := by
    rw [hmain, List.head?_map, List.range_succ_eq_map]
    simp
  refine ⟨hmain, ?_, hget, ?_, hhead, ?_, by decide⟩
  · rw [hmain, List.length_map, List.length_range]
  · intro m hm
    rw [hslots] at hm
    obtain ⟨i, hi, rfl⟩ := List.mem_map.mp hm
    rw [List.mem_range] at hi
    constructor
    · omega
    · omega
  · intro haeq
    rw [hhead, haeq]

/-- Witness for C2 at the spec's example window 12:00-15:00
(720-900 minutes). -/
theorem buildSlotsFromWindow_witness :
    buildSlotsFromWindow (some "12:00") (some "15:00") =
      (List.range ((900 - 720) / 15 + 1)).map
        (fun i => formatMinutes (720 + 15 * i)) ∧
    (buildSlotsFromWindow (some "12:00") (some "15:00")).length =
      (900 - 720) / 15 + 1 :=
  ⟨(buildSlotsFromWindow_spec "12:00" "15:00" 720 900 (by decide) (by decide)
      (by decide)).1,
   (buildSlotsFromWindow_spec "12:00" "15:00" 720 900 (by decide) (by decide)
      (by decide)).2.1⟩

/-! ## Grid sizing (RoomLayoutEditor.tsx `getSalaSize`,
EditZonesDialog.tsx `computeGridFromZones`). -/

/-- The `getSalaSize` (RoomLayoutEditor.tsx lines 88-100): `(8, 6)` for an
empty zone list, otherwise the running maxima of `z.x + z.base` and
`z.y + z.altezza` starting from 0 — note: no floor in this branch. -/
def getSalaSize (sala : Sala) : Nat × Nat :=
  if sala.zone.isEmpty then (8, 6)
  else
    (sala.zone.foldl (fun maxX z => max maxX (z.x + z.base)) 0,
     sala.zone.foldl (fun maxY z => max maxY (z.y + z.altezza)) 0)

/-- The `computeGridFromZones` (EditZonesDialog.tsx lines 57-62): `(8, 6)`
for an empty list, otherwise `Math.max(...zones.map(z => z.x + z.base), 8)`
and likewise for the height with floor 6. -/
def computeGridFromZones (zones : List ZonaSala) : Nat × Nat :=
  if zones.isEmpty then (8, 6)
  else
    ((zones.map (fun z => z.x + z.base)).foldl max 8,
     (zones.map (fun z => z.y + z.altezza)).foldl max 6)

/-- Bounding-box width of a zone list, as the claim words it: the
maximum over all zones of `x + width`. -/
def zonesMaxX (zones : List ZonaSala) : Nat :=
  zones.foldl (fun maxX z => max maxX (z.x + z.base)) 0

/-- Bounding-box height of a zone list: the maximum over all zones of
`y + height`. -/
def zonesMaxY (zones : List ZonaSala) : Nat :=
  zones.foldl (fun maxY z => max maxY (z.y + z.altezza)) 0

/-- A `max`-fold starting at `a` is `max a` of the fold starting at 0. -/
theorem foldl_max_shift (f : ZonaSala → Nat) (l : List ZonaSala) :
    ∀ a : Nat,
      l.foldl (fun m z => max m (f z)) a =
        max a (l.foldl (fun m z => max m (f z)) 0) := by
  induction l with
  | nil => intro a; simp
  | cons z rest ih =>
      intro a
      simp only [List.foldl_cons]
      rw [ih (max a (f z)), ih (max 0 (f z))]
      omega

/-- Counterexample to C3: the room-layout editor applies no 8×6 floor
when zones exist.  A room whose only zone is the 2×2 rectangle at the
origin gets a 2×2 grid, with width 2 < 8 and height 2 < 6. -/
theorem getSalaSize_no_floor_counterexample :
    getSalaSize ⟨"demo", [⟨0, 0, TipoZona.SPAZIO_VIVIBILE, 2, 2⟩]⟩ = (2, 2) ∧
    ¬ (8 ≤ (getSalaSize ⟨"demo", [⟨0, 0, TipoZona.SPAZIO_VIVIBILE, 2, 2⟩]⟩).1 ∧
       6 ≤ (getSalaSize ⟨"demo", [⟨0, 0, TipoZona.SPAZIO_VIVIBILE, 2, 2⟩]⟩).2) := by
  decide

/-- C3 (amended).  The zone editor's `computeGridFromZones` always
returns the bounding box floored elementwise at 8×6 (hence `(8, 6)` on an
empty list); the layout editor's `getSalaSize` returns `(8, 6)` on an
empty zone list but the raw bounding box, with no floor, otherwise. -/
theorem grid_bounding_box_amended (zones : List ZonaSala) (sala : Sala) :
    computeGridFromZones zones =
      (max (zonesMaxX zones) 8, max (zonesMaxY zones) 6) ∧
    8 ≤ (computeGridFromZones zones).1 ∧
    6 ≤ (computeGridFromZones zones).2 ∧
    computeGridFromZones [] = (8, 6) ∧
    (sala.zone = [] → getSalaSize sala = (8, 6)) ∧
    (sala.zone ≠ [] →
      getSalaSize sala = (zonesMaxX sala.zone, zonesMaxY sala.zone)) := by
  have hmap : ∀ (f : ZonaSala → Nat) (l : List ZonaSala) (a : Nat),
      (l.map f).foldl max a = max a (l.foldl (fun m z => max m (f z)) 0) := by
    intro f l a
    rw [List.foldl_map]
    exact foldl_max_shift f l a
  have hmain : computeGridFromZones zones =
      (max (zonesMaxX zones) 8, max (zonesMaxY zones) 6) := by
    cases zones with
    | nil => rfl
    | cons z rest =>
        unfold computeGridFromZones
        rw [if_neg (by simp), hmap, hmap]
        unfold zonesMaxX zonesMaxY
        rw [Prod.mk.injEq]
        omega
  refine ⟨hmain, ?_, ?_, rfl, ?_, ?_⟩
  · rw [hmain]; exact Nat.le_max_right _ _
  · rw [hmain]; exact Nat.le_max_right _ _
  · intro h
    simp [getSalaSize, h]
  · intro h
    rw [getSalaSize, if_neg (by simpa using h)]
    rfl

/-- Witness for C3 (amended) on a concrete room: a single 10×3 zone at
`(1, 1)` gives `computeGridFromZones = (11, 6)` (height floored) and
`getSalaSize = (11, 4)` (no floor), and an empty room gives `(8, 6)`. -/
theorem grid_bounding_box_witness :
    getSalaSize ⟨"a", []⟩ = (8, 6) ∧
    getSalaSize ⟨"b", [⟨1, 1, TipoZona.SPAZIO_VIVIBILE, 10, 3⟩]⟩ =
      (zonesMaxX [⟨1, 1, TipoZona.SPAZIO_VIVIBILE, 10, 3⟩],
       zonesMaxY [⟨1, 1, TipoZona.SPAZIO_VIVIBILE, 10, 3⟩]) :=
  ⟨(grid_bounding_box_amended [] ⟨"a", []⟩).2.2.2.2.1 rfl,
   (grid_bounding_box_amended [] ⟨"b", [⟨1, 1, TipoZona.SPAZIO_VIVIBILE, 10, 3⟩]⟩).2.2.2.2.2
     (by decide)⟩

/-! ## Table placement (RoomLayoutEditor.tsx `handleCellTap`). -/

/-- The editor's toolbar mode (`type EditMode = 'NONE' | 'ADD' | 'DELETE'`). -/
inductive EditMode
  | NONE
  | ADD
  | DELETE
  deriving DecidableEq, Repr

/-- The `isCellVivibile` (RoomLayoutEditor.tsx line 128). -/
def isCellVivibile (tipoZona : Option TipoZona) : Bool :=
  tipoZona == some TipoZona.SPAZIO_VIVIBILE

/-- The `getTableAt` (RoomLayoutEditor.tsx lines 350-353). -/
def getTableAt (tables : List Tavolo) (x y : Nat) : Option Tavolo :=
  tables.find? (fun t => t.x == x && t.y == y)

/-- The `gridCells` memo (RoomLayoutEditor.tsx lines 340-348): row-major
cells `(x, y, tipoZona)` over the derived `getSalaSize` grid. -/
def gridCells (sala : Sala) : List (Nat × Nat × Option TipoZona) :=
  (List.range (getSalaSize sala).2).flatMap fun y =>
    (List.range (getSalaSize sala).1).map fun x =>
      (x, y, getCellTipoZona sala.zone x y)

/-- The create-table request body `{ x, y, stato: 'LIBERO' }` issued by
`createTables.mutate`. -/
structure CreateTableCmd where
  x : Nat
  y : Nat
  stato : TableStatus
  deriving DecidableEq, Repr

/-- The `handleCellTap` (RoomLayoutEditor.tsx lines 560-575), as the
create-table request it issues (`none` = early return, no mutation). -/
def handleCellTap (canEditTables : Bool) (editMode : EditMode) (sala : Sala)
    (tables : List Tavolo) (x y : Nat) : Option CreateTableCmd :=
  if !canEditTables then none
  else if editMode ≠ EditMode.ADD then none
  else
    match (gridCells sala).find? (fun c => c.1 == x && c.2.1 == y) with
    | none => none
    | some cell =>
        if !isCellVivibile cell.2.2 then none
        else if (getTableAt tables x y).isSome then none
        else some ⟨x, y, TableStatus.LIBERO⟩

/-- Every cell the grid memo produces is in bounds and carries the
classification of its own coordinates. -/
theorem gridCells_mem (sala : Sala) (c : Nat × Nat × Option TipoZona)
    (h : c ∈ gridCells sala) :
    c.1 < (getSalaSize sala).1 ∧ c.2.1 < (getSalaSize sala).2 ∧
      c.2.2 = getCellTipoZona sala.zone c.1 c.2.1 := by
  unfold gridCells at h
  rw [List.mem_flatMap] at h
  obtain ⟨y, hy, hc⟩ := h
  rw [List.mem_map] at hc
  obtain ⟨x, hx, rfl⟩ := hc
  rw [List.mem_range] at hy hx
  exact ⟨hx, hy, rfl⟩

/-- C4.  `handleCellTap` issues a create-table request only when table
editing is enabled, the editor is in ADD mode, `(x, y)` is a grid cell
classified `SPAZIO_VIVIBILE`, and no table sits at `(x, y)`; the request
it issues is for `(x, y)` with status `LIBERO`. -/
theorem handleCellTap_safety (canEditTables : Bool) (editMode : EditMode)
    (sala : Sala) (tables : List Tavolo) (x y : Nat) (cmd : CreateTableCmd)
    (h : handleCellTap canEditTables editMode sala tables x y = some cmd) :
    canEditTables = true ∧ editMode = EditMode.ADD ∧
    x < (getSalaSize sala).1 ∧ y < (getSalaSize sala).2 ∧
    getCellTipoZona sala.zone x y = some TipoZona.SPAZIO_VIVIBILE ∧
    getTableAt tables x y = none ∧
    cmd = ⟨x, y, TableStatus.LIBERO⟩ := by
  unfold handleCellTap at h
  split at h
  · exact absurd h (by simp)
  next hedit =>
    split at h
    · exact absurd h (by simp)
    next hmode =>
      split at h
      · exact absurd h (by simp)
      next cell hfind =>
        split at h
        · exact absurd h (by simp)
        next hviv =>
          split at h
          · exact absurd h (by simp)
          next htab =>
            have hcellmem := List.mem_of_find?_eq_some hfind
            have hcellpred := List.find?_some hfind
            rw [Bool.and_eq_true, beq_iff_eq, beq_iff_eq] at hcellpred
            obtain ⟨hcx, hcy⟩ := hcellpred
            have hprops := gridCells_mem sala cell hcellmem
            have hvv : cell.2.2 = some TipoZona.SPAZIO_VIVIBILE := by
              simp only [Bool.not_eq_true, Bool.not_eq_eq_eq_not,
                Bool.not_true, Bool.not_eq_false] at hviv
              unfold isCellVivibile at hviv
              exact beq_iff_eq.mp hviv
            refine ⟨?_, ?_, ?_, ?_, ?_, ?_, ?_⟩
            · simpa using hedit
            · exact not_not.mp hmode
            · rw [← hcx]; exact hprops.1
            · rw [← hcy]; exact hprops.2.1
            · rw [← hcx, ← hcy, ← hprops.2.2]; exact hvv
            · exact Option.not_isSome_iff_eq_none.mp htab
            · exact (Option.some.injEq _ _ ▸ h).symm

/-- Witness for C4: in the 8×6 room fully covered by one livable zone,
with no tables, ADD mode and editing enabled, tapping `(2, 2)` issues the
create request `{x := 2, y := 2, stato := LIBERO}` and all the guard
conditions hold. -/
theorem handleCellTap_witness :
    true = true ∧ EditMode.ADD = EditMode.ADD ∧
    2 < (getSalaSize ⟨"Main Hall", [⟨0, 0, TipoZona.SPAZIO_VIVIBILE, 8, 6⟩]⟩).1 ∧
    2 < (getSalaSize ⟨"Main Hall", [⟨0, 0, TipoZona.SPAZIO_VIVIBILE, 8, 6⟩]⟩).2 ∧
    getCellTipoZona [⟨0, 0, TipoZona.SPAZIO_VIVIBILE, 8, 6⟩] 2 2 =
      some TipoZona.SPAZIO_VIVIBILE ∧
    getTableAt [] 2 2 = none ∧
    (⟨2, 2, TableStatus.LIBERO⟩ : CreateTableCmd) = ⟨2, 2, TableStatus.LIBERO⟩ :=
  handleCellTap_safety true EditMode.ADD
    ⟨"Main Hall", [⟨0, 0, TipoZona.SPAZIO_VIVIBILE, 8, 6⟩]⟩ [] 2 2
    ⟨2, 2, TableStatus.LIBERO⟩ (by decide)

/-! ## Reservation assignment and the sidebar list
(RoomLayoutEditor.tsx `getTurnoFromOrario`, `assignedReservationNames`,
`unassignedReservations`, `handleDragEnd`, `DraggableReservation`). -/

/-- Model of `Number(orario?.split(':')?.[0])`: the hour component of a time
string under the JS coercions — `none` models both a missing time
(`Number(undefined)` is `NaN`) and an unparsable hour component. -/
def orarioHourNumber (orario : Option String) : Option Nat :=
  match orario with
  | none => none
  | some s => jsStrNat ((jsSplit ':' s).headD "")

/-- The `getTurnoFromOrario` (RoomLayoutEditor.tsx lines 102-105):
`hh < 15 ? 'PRANZO' : 'CENA'`; `NaN < 15` is `false` in JS, so a missing
or unparsable hour yields `CENA`. -/
def getTurnoFromOrario (orario : Option String) : Turno :=
  match orarioHourNumber orario with
  | some hh => if hh < 15 then Turno.PRANZO else Turno.CENA
  | none => Turno.CENA

/-- The `UILayoutReservation` entries built by the `unassignedReservations`
memo: the reservation plus the frontend-only fields it adds. -/
structure UILayoutReservation extends Reservation where
  numeroPosti : Nat
  tavoloAssegnato : Bool
  assignedCoords : Option (Nat × Nat)
  deriving DecidableEq, Repr

/-- The `assignedReservationNames` memo (RoomLayoutEditor.tsx lines
210-218): the set of names embedded in the fetched tables, unioned with
the names discovered by the per-table group-reservation fetches
(`assignedFromBackend`).  The `Set` is modelled by list membership. -/
def assignedReservationNames (tables : List Tavolo)
    (backendNames : List String) : List String :=
  tables.filterMap (fun t => t.nomePrenotazione) ++ backendNames

/-- The `unassignedReservations` memo (RoomLayoutEditor.tsx lines
272-284): the fetched reservations of the active date, filtered to the
selected shift, each flagged with whether its name is already assigned;
`amap` is the `reservationAssignmentMap` lookup giving the coordinates a
name is assigned to. -/
def unassignedReservations (reservations : List Reservation) (turno : Turno)
    (assignedNames : List String) (amap : String → List (Nat × Nat)) :
    List UILayoutReservation :=
  (reservations.filter (fun r => getTurnoFromOrario (some r.orario) == turno)).map
    fun r =>
      { toReservation := r
        numeroPosti := r.numPersone
        tavoloAssegnato := assignedNames.contains r.nome
        assignedCoords := (amap r.nome).head? }

/-- A droppable id of the layout grid: `GridCell` registers
`table-${x}-${y}` for cells holding a table and `cell-${x}-${y}` for
empty cells; `handleDragEnd`'s `overId.startsWith('table-')` test and
`split('-')` parse are this discrimination. -/
inductive LayoutOverId
  | table (x y : Nat)
  | cell (x y : Nat)
  deriving DecidableEq, Repr

/-- The drag payload `{type: 'reservation', name}` attached by
`DraggableReservation`. -/
structure DragDataReservation where
  name : String
  deriving DecidableEq, Repr

/-- The assign-reservation request body issued by
`assignReservation.mutate`. -/
structure AssignCmd where
  x : Nat
  y : Nat
  nomePrenotazione : String
  deriving DecidableEq, Repr

/-- The `handleDragEnd` (RoomLayoutEditor.tsx lines 636-674), as the
assign-reservation request it issues (`none` = early return or the
"già assegnata" toast, no mutation). -/
def handleDragEndLayout (canEditTables : Bool) (editMode : EditMode)
    (tables : List Tavolo) (backendNames : List String)
    (over : Option LayoutOverId) (dragData : Option DragDataReservation) :
    Option AssignCmd :=
  if !canEditTables then none
  else if editMode ≠ EditMode.NONE then none
  else
    match over with
    | none => none
    | some (LayoutOverId.cell _ _) => none
    | some (LayoutOverId.table x y) =>
        match dragData with
        | none => none
        | some d =>
            if (assignedReservationNames tables backendNames).contains d.name then
              none
            else some ⟨x, y, d.name⟩

/-- The `disabled` argument of `useDraggable` in `DraggableReservation`
(RoomLayoutEditor.tsx lines 1287-1292): the sidebar-wide `disabled`
flag or the entry's `tavoloAssegnato` flag. -/
def draggableReservationDisabled (disabled : Bool)
    (reservation : UILayoutReservation) : Bool :=
  disabled || reservation.tavoloAssegnato

/-- C5.  An already-assigned reservation is never assigned again: every
assign request `handleDragEnd` issues names a reservation outside the
already-assigned set, and every sidebar entry whose name is in that set
has its drag handle disabled. -/
theorem no_reassignment_of_assigned
    (canEditTables : Bool) (editMode : EditMode) (tables : List Tavolo)
    (backendNames : List String) (over : Option LayoutOverId)
    (dragData : Option DragDataReservation) (cmd : AssignCmd)
    (reservations : List Reservation) (turno : Turno)
    (amap : String → List (Nat × Nat)) (outerDisabled : Bool)
    (r : UILayoutReservation)
    (hcmd : handleDragEndLayout canEditTables editMode tables backendNames
      over dragData = some cmd)
    (hr : r ∈ unassignedReservations reservations turno
      (assignedReservationNames tables backendNames) amap) :
    cmd.nomePrenotazione ∉ assignedReservationNames tables backendNames ∧
    (r.nome ∈ assignedReservationNames tables backendNames →
      draggableReservationDisabled outerDisabled r = true) := by
  constructor
  · unfold handleDragEndLayout at hcmd
    split at hcmd
    · exact absurd hcmd (by simp)
    split at hcmd
    · exact absurd hcmd (by simp)
    split at hcmd
    · exact absurd hcmd (by simp)
    · exact absurd hcmd (by simp)
    next xt yt =>
      split at hcmd
      · exact absurd hcmd (by simp)
      next d =>
        split at hcmd
        · exact absurd hcmd (by simp)
        next hmem =>
          intro hin
          apply hmem
          have : cmd.nomePrenotazione = d.name := by
            cases hcmd
            rfl
          rw [this] at hin
          exact List.elem_eq_true_of_mem hin
  · intro hin
    unfold unassignedReservations at hr
    rw [List.mem_map] at hr
    obtain ⟨r0, _, rfl⟩ := hr
    unfold draggableReservationDisabled
    simp only [Bool.or_eq_true]
    right
    exact List.elem_eq_true_of_mem hin

/-- Witness for C5: with one table assigned to "Anna" and "Luca" known
from the backend, dropping the unassigned reservation "Marco" on table
`(0, 0)` issues an assignment naming a reservation outside the assigned
set, and the sidebar entry for the assigned "Anna" has a disabled drag
handle. -/
theorem no_reassignment_witness :
    (AssignCmd.mk 0 0 "Marco").nomePrenotazione ∉
      assignedReservationNames [⟨0, 0, TableStatus.RISERVATO, some "Anna"⟩]
        ["Luca"] ∧
    ((UILayoutReservation.mk ⟨"Anna", 4, "2024-05-01", "12:00", none, none⟩
        4 true none).nome ∈
      assignedReservationNames [⟨0, 0, TableStatus.RISERVATO, some "Anna"⟩]
        ["Luca"] →
      draggableReservationDisabled false
        (UILayoutReservation.mk ⟨"Anna", 4, "2024-05-01", "12:00", none, none⟩
          4 true none) = true) :=
  no_reassignment_of_assigned true EditMode.NONE
    [⟨0, 0, TableStatus.RISERVATO, some "Anna"⟩] ["Luca"]
    (some (LayoutOverId.table 0 0)) (some ⟨"Marco"⟩) ⟨0, 0, "Marco"⟩
    [⟨"Anna", 4, "2024-05-01", "12:00", none, none⟩] Turno.PRANZO
    (fun _ => []) false
    (UILayoutReservation.mk ⟨"Anna", 4, "2024-05-01", "12:00", none, none⟩
      4 true none)
    (by decide) (by decide)

/-! ## Configuration-existence check (src/hooks/use-sala.ts
`useSalaConfigurationCheck`). -/

/-- The uniform API error shape `{ message: string; status: number }`
(use-sala.ts lines 19-29). -/
structure ApiError where
  message : String
  status : Nat
  deriving DecidableEq, Repr

/-- The `SalaConfiguration` (src/types/index.ts). -/
structure SalaConfiguration where
  data : String
  turno : Turno
  sala : Sala
  tavoli : Option (List Tavolo)
  deriving DecidableEq, Repr

/-- The `queryFn` of `useSalaConfigurationCheck` (use-sala.ts lines
386-402).  `apiResult` is the outcome of
`salaApi.getConfiguration(nomeSala, date, turno)`; the API client
rejects with the `ApiError` shape, which `unknownToApiError` passes
through unchanged, so the catch branch sees exactly the `ApiError`. -/
def salaConfigurationCheckQueryFn (nomeSala : Option String)
    (apiResult : Except ApiError SalaConfiguration) :
    Except ApiError (Option SalaConfiguration) :=
  match nomeSala with
  | none => Except.ok none
  | some _ =>
      match apiResult with
      | Except.ok config => Except.ok (some config)
      | Except.error err =>
          if err.status = 404 then Except.ok none else Except.error err

/-- C6.  The configuration-existence check resolves to the absence value
exactly on HTTP 404: a 404 failure resolves to `none` ("not configured")
without raising, any other failure is propagated unchanged, and a
success returns the configuration record. -/
theorem configuration_check_404 (nomeSala : String) :
    (∀ err : ApiError, err.status = 404 →
      salaConfigurationCheckQueryFn (some nomeSala) (Except.error err) =
        Except.ok none) ∧
    (∀ err : ApiError, err.status ≠ 404 →
      salaConfigurationCheckQueryFn (some nomeSala) (Except.error err) =
        Except.error err) ∧
    (∀ config : SalaConfiguration,
      salaConfigurationCheckQueryFn (some nomeSala) (Except.ok config) =
        Except.ok (some config)) := by
  refine ⟨?_, ?_, ?_⟩
  · intro err h404
    show (if err.status = 404 then
        (Except.ok none : Except ApiError (Option SalaConfiguration))
      else Except.error err) = Except.ok none
    rw [if_pos h404]
  · intro err h404
    show (if err.status = 404 then
        (Except.ok none : Except ApiError (Option SalaConfiguration))
      else Except.error err) = Except.error err
    rw [if_neg h404]
  · intro config
    rfl

/-- Witness for C6 at the spec's example `(room="Main Hall",
date="2024-05-01", shift="PRANZO")`: a 404 resolves to "no
configuration", a 500 propagates. -/
theorem configuration_check_witness :
    salaConfigurationCheckQueryFn (some "Main Hall")
      (Except.error ⟨"Not Found", 404⟩) = Except.ok none ∧
    salaConfigurationCheckQueryFn (some "Main Hall")
      (Except.error ⟨"Internal Server Error", 500⟩) =
      Except.error ⟨"Internal Server Error", 500⟩ :=
  ⟨(configuration_check_404 "Main Hall").1 ⟨"Not Found", 404⟩ rfl,
   (configuration_check_404 "Main Hall").2.1 ⟨"Internal Server Error", 500⟩
     (by decide)⟩

/-! ## Working-day schedule resolution (src/pages/NewReservation.tsx
`getDayTypeFromDate`, `getSpecialDay`, `getTemplateDay`, `dayConfig`,
`buildSlotsForDay`). -/

/-- The `getDayTypeFromDate` (NewReservation.tsx lines 39-44), on the
JS `Date.getDay()` value (0 = Sunday, 6 = Saturday). -/
def getDayTypeFromDate (day : Nat) : WorkingDayType :=
  if day = 0 then WorkingDayType.SUNDAY
  else if day = 6 then WorkingDayType.SATURDAY
  else WorkingDayType.WEEKDAY

/-- The predicate of the `find` inside `getSpecialDay` (NewReservation.tsx
lines 81-91): a SPECIAL entry whose normalized date equals the target
date string.  `norm` stands for `normalizeApiDate`, whose date-fns
parse/format round-trip is outside the embedding; `normalizeApiDate` of
a missing date is `null`, and `null === dateStr` is false. -/
def specialPred (norm : String → Option String) (dateStr : String)
    (d : WorkingDay) : Bool :=
  d.type == WorkingDayType.SPECIAL &&
    (match d.data with
     | none => false
     | some s => norm s == some dateStr)

/-- The `getSpecialDay` (NewReservation.tsx lines 81-91): first SPECIAL
entry matching the target date, else `null`. -/
def getSpecialDay (norm : String → Option String)
    (workingDays : List WorkingDay) (dateStr : String) : Option WorkingDay :=
  workingDays.find? (specialPred norm dateStr)

/-- The predicate of the `find` inside `getTemplateDay`. -/
def templatePred (dayOfWeek : Nat) (d : WorkingDay) : Bool :=
  d.type == getDayTypeFromDate dayOfWeek

/-- The `getTemplateDay` (NewReservation.tsx lines 93-97): first entry whose
type matches the date's weekday class, else `null`. -/
def getTemplateDay (workingDays : List WorkingDay) (dayOfWeek : Nat) :
    Option WorkingDay :=
  workingDays.find? (templatePred dayOfWeek)

/-- The `dayConfig` (NewReservation.tsx lines 144-152):
`specialDay ?? templateDay ?? null`. -/
def dayConfig (norm : String → Option String) (workingDays : List WorkingDay)
    (dateStr : String) (dayOfWeek : Nat) : Option WorkingDay :=
  match getSpecialDay norm workingDays dateStr with
  | some d => some d
  | none => getTemplateDay workingDays dayOfWeek

/-- JS truthiness of an optional string: `undefined` and `""` are falsy
(the `day.a1 && day.c1` guards of `buildSlotsForDay`). -/
def jsTruthyStr (s : Option String) : Bool :=
  match s with
  | none => false
  | some str => !(str == "")

/-- The lunch-window contribution of `buildSlotsForDay`
(NewReservation.tsx lines 104, 107-109): slots only when `!day.g1`
("g1/g2 = true -> chiuso, false -> aperto") and both times are truthy. -/
def lunchSlots (day : WorkingDay) : List String :=
  if !day.g1 && jsTruthyStr day.a1 && jsTruthyStr day.c1 then
    buildSlotsFromWindow day.a1 day.c1
  else []

/-- The dinner-window contribution of `buildSlotsForDay`
(NewReservation.tsx lines 105, 110-112). -/
def dinnerSlots (day : WorkingDay) : List String :=
  if !day.g2 && jsTruthyStr day.a2 && jsTruthyStr day.c2 then
    buildSlotsFromWindow day.a2 day.c2
  else []

/-- The `buildSlotsForDay` (NewReservation.tsx lines 99-115): no day
resolved means no slots; otherwise the lunch slots followed by the
dinner slots. -/
def buildSlotsForDay (day : Option WorkingDay) : List String :=
  match day with
  | none => []
  | some d => lunchSlots d ++ dinnerSlots d

/-- Auxiliary lemma: `find?` returns the first match: the list splits into a prefix with
the predicate everywhere false, the found element, and a tail. -/
theorem find?_first {α : Type} (p : α → Bool) :
    ∀ (l : List α) (a : α), l.find? p = some a →
      ∃ l1 l2, l = l1 ++ a :: l2 ∧ p a = true ∧ ∀ x ∈ l1, p x = false := by
  intro l
  induction l with
  | nil => intro a h; exact absurd h (by simp)
  | cons b rest ih =>
      intro a h
      by_cases hb : p b = true
      · rw [List.find?_cons_of_pos _ hb] at h
        cases h
        exact ⟨[], rest, rfl, hb, by simp⟩
      · rw [List.find?_cons_of_neg _ hb] at h
        obtain ⟨l1, l2, rfl, hpa, hl1⟩ := ih a h
        refine ⟨b :: l1, l2, rfl, hpa, ?_⟩
        intro x hx
        rcases List.mem_cons.mp hx with rfl | hmem
        · exact Bool.not_eq_true _ ▸ hb
        · exact hl1 x hmem

/-- C7.  Working-day resolution is SPECIAL-first: the resolved entry is
the first SPECIAL entry whose normalized date equals the target date;
only when no such entry exists is it the first entry matching the
date's weekday class (SUNDAY for day 0, SATURDAY for day 6, WEEKDAY
otherwise); if neither exists the resolution is `none` and no slots are
offered. -/
theorem working_day_resolution_special_first
    (norm : String → Option String) (workingDays : List WorkingDay)
    (dateStr : String) (dayOfWeek : Nat) :
    (∀ d, dayConfig norm workingDays dateStr dayOfWeek = some d →
      (∃ l1 l2, workingDays = l1 ++ d :: l2 ∧
        specialPred norm dateStr d = true ∧
        ∀ e ∈ l1, specialPred norm dateStr e = false) ∨
      ((∀ e ∈ workingDays, specialPred norm dateStr e = false) ∧
        ∃ l1 l2, workingDays = l1 ++ d :: l2 ∧
          templatePred dayOfWeek d = true ∧
          ∀ e ∈ l1, templatePred dayOfWeek e = false)) ∧
    (dayConfig norm workingDays dateStr dayOfWeek = none →
      (∀ e ∈ workingDays, specialPred norm dateStr e = false) ∧
      (∀ e ∈ workingDays, templatePred dayOfWeek e = false) ∧
      buildSlotsForDay none = []) ∧
    getDayTypeFromDate 0 = WorkingDayType.SUNDAY ∧
    getDayTypeFromDate 6 = WorkingDayType.SATURDAY ∧
    (∀ k, k ≠ 0 → k ≠ 6 → getDayTypeFromDate k = WorkingDayType.WEEKDAY) := by
  refine ⟨?_, ?_, rfl, rfl, ?_⟩
  · intro d hd
    unfold dayConfig at hd
    cases hsp : getSpecialDay norm workingDays dateStr with
    | some s =>
        rw [hsp] at hd
        cases hd
        exact Or.inl (find?_first _ workingDays d hsp)
    | none =>
        rw [hsp] at hd
        refine Or.inr ⟨?_, find?_first _ workingDays d hd⟩
        intro e he
        have := List.find?_eq_none.mp hsp e he
        exact Bool.not_eq_true _ ▸ this
  · intro hnone
    unfold dayConfig at hnone
    cases hsp : getSpecialDay norm workingDays dateStr with
    | some s => rw [hsp] at hnone; exact absurd hnone (by simp)
    | none =>
        rw [hsp] at hnone
        refine ⟨?_, ?_, rfl⟩
        · intro e he
          have := List.find?_eq_none.mp hsp e he
          exact Bool.not_eq_true _ ▸ this
        · intro e he
          have := List.find?_eq_none.mp hnone e he
          exact Bool.not_eq_true _ ▸ this
  · intro k h0 h6
    unfold getDayTypeFromDate
    rw [if_neg h0, if_neg h6]

/-- Identity normalization: `normalizeApiDate` on an already-normalized
`yyyy-MM-dd` string. -/
def normId : String → Option String := fun s => some s

/-- Example WEEKDAY template entry. -/
def wdWeekdayEx : WorkingDay :=
  ⟨WorkingDayType.WEEKDAY, false, true, some "12:00", some "14:00",
   none, none, none⟩

/-- Example SPECIAL entry for 2024-05-01. -/
def wdSpecialEx : WorkingDay :=
  ⟨WorkingDayType.SPECIAL, false, false, some "12:00", some "15:00",
   none, none, some "2024-05-01"⟩

/-- Witness for C7: with a WEEKDAY template and a SPECIAL entry for
2024-05-01 both present, resolving 2024-05-01 (a Wednesday, day 3) picks
the SPECIAL entry even though the template also matches, and day 3 maps
to the WEEKDAY class. -/
theorem working_day_resolution_witness :
    ((∃ l1 l2, [wdWeekdayEx, wdSpecialEx] = l1 ++ wdSpecialEx :: l2 ∧
        specialPred normId "2024-05-01" wdSpecialEx = true ∧
        ∀ e ∈ l1, specialPred normId "2024-05-01" e = false) ∨
      ((∀ e ∈ [wdWeekdayEx, wdSpecialEx],
          specialPred normId "2024-05-01" e = false) ∧
        ∃ l1 l2, [wdWeekdayEx, wdSpecialEx] = l1 ++ wdSpecialEx :: l2 ∧
          templatePred 3 wdSpecialEx = true ∧
          ∀ e ∈ l1, templatePred 3 e = false)) ∧
    getDayTypeFromDate 3 = WorkingDayType.WEEKDAY :=
  ⟨(working_day_resolution_special_first normId [wdWeekdayEx, wdSpecialEx]
      "2024-05-01" 3).1 wdSpecialEx (by decide),
   (working_day_resolution_special_first normId [wdWeekdayEx, wdSpecialEx]
      "2024-05-01" 3).2.2.2.2 3 (by decide) (by decide)⟩

/-! ## C8: the polarity of the shift flags. -/

/-- A WEEKDAY entry with `g1 = true` and a valid 12:00-13:00 lunch
window. -/
def dayFlagTrue : WorkingDay :=
  ⟨WorkingDayType.WEEKDAY, true, true, some "12:00", some "13:00",
   none, none, none⟩

/-- The same entry with `g1 = false`. -/
def dayFlagFalse : WorkingDay :=
  ⟨WorkingDayType.WEEKDAY, false, true, some "12:00", some "13:00",
   none, none, none⟩

/-- Counterexample to C8: the claim reads `g1`/`g2` as open-flags
(`false` ⇒ no slots, `true` ⇒ slots), but the code treats them as
closed-flags (`lunchOpen = !day.g1`).  With a valid 12:00-13:00 window,
`g1 = true` contributes nothing, while `g1 = false` contributes the five
slots 12:00-13:00 — the opposite of the claim on both sides. -/
theorem shift_flag_polarity_counterexample :
    dayFlagTrue.g1 = true ∧
    buildSlotsForDay (some dayFlagTrue) = [] ∧
    dayFlagFalse.g1 = false ∧
    buildSlotsForDay (some dayFlagFalse) =
      ["12:00", "12:15", "12:30", "12:45", "13:00"] ∧
    buildSlotsForDay (some dayFlagFalse) ≠ [] := by
  decide

/-- C8 (amended).  The `g1`/`g2` flags are closed-flags: a shift whose
flag is `true` contributes no candidate times; only shifts whose flag is
`false` contribute, and a shift also contributes nothing when its open
or close time is missing (or empty, which is falsy in JS). -/
theorem shift_contribution_amended (d : WorkingDay) :
    buildSlotsForDay (some d) = lunchSlots d ++ dinnerSlots d ∧
    (d.g1 = true → lunchSlots d = []) ∧
    (d.g2 = true → dinnerSlots d = []) ∧
    (d.a1 = none ∨ d.c1 = none → lunchSlots d = []) ∧
    (d.a2 = none ∨ d.c2 = none → dinnerSlots d = []) ∧
    (d.g1 = false → jsTruthyStr d.a1 = true → jsTruthyStr d.c1 = true →
      lunchSlots d = buildSlotsFromWindow d.a1 d.c1) ∧
    (d.g2 = false → jsTruthyStr d.a2 = true → jsTruthyStr d.c2 = true →
      dinnerSlots d = buildSlotsFromWindow d.a2 d.c2) ∧
    (d.g1 = true → d.g2 = true → buildSlotsForDay (some d) = []) := by
  have hlunch_closed : d.g1 = true → lunchSlots d = [] := by
    intro hg
    unfold lunchSlots
    rw [if_neg (by simp [hg])]
  have hdinner_closed : d.g2 = true → dinnerSlots d = [] := by
    intro hg
    unfold dinnerSlots
    rw [if_neg (by simp [hg])]
  refine ⟨rfl, hlunch_closed, hdinner_closed, ?_, ?_, ?_, ?_, ?_⟩
  · intro hmiss
    unfold lunchSlots
    rcases hmiss with hm | hm <;> rw [if_neg (by simp [hm, jsTruthyStr])]
  · intro hmiss
    unfold dinnerSlots
    rcases hmiss with hm | hm <;> rw [if_neg (by simp [hm, jsTruthyStr])]
  · intro hg ha hc
    unfold lunchSlots
    rw [if_pos (by simp [hg, ha, hc])]
  · intro hg ha hc
    unfold dinnerSlots
    rw [if_pos (by simp [hg, ha, hc])]
  · intro hg1 hg2
    show lunchSlots d ++ dinnerSlots d = []
    rw [hlunch_closed hg1, hdinner_closed hg2]
    rfl

/-- Witness for C8 (amended) on `dayFlagFalse` (`g1 = false`, dinner
flag `true`): the lunch window contributes its slots and the dinner
window contributes nothing. -/
theorem shift_contribution_witness :
    lunchSlots dayFlagFalse =
      buildSlotsFromWindow dayFlagFalse.a1 dayFlagFalse.c1 ∧
    dinnerSlots dayFlagFalse = [] :=
  ⟨(shift_contribution_amended dayFlagFalse).2.2.2.2.2.1 rfl (by decide)
      (by decide),
   (shift_contribution_amended dayFlagFalse).2.2.1 rfl⟩

/-! ## Zone-editor drops (EditZonesDialog.tsx `handleDragEnd`). -/

/-- The `newZoneConfig` template: width, height and type of the zone
being dragged (`Omit<ZonaSala, 'x' | 'y'>`). -/
structure NewZoneConfig where
  base : Nat
  altezza : Nat
  tipo : TipoZona
  deriving DecidableEq, Repr

/-- A droppable id of the zone-editor grid: `ZoneCell` registers exactly
the ids `cell-${x}-${y}`; `other` stands for a drop over no grid cell
(the `startsWith('cell-')` test failing). -/
inductive ZoneOverId
  | cell (x y : Nat)
  | other
  deriving DecidableEq, Repr

/-- The `handleDragEnd` (EditZonesDialog.tsx lines 205-225), as the new zone
list (the `setZones` update; the zone list is unchanged on every early
return).  `dragData` is `none` when the active payload is not the
`new-zone` template. -/
def zonesHandleDragEnd (gridWidth gridHeight : Nat) (zones : List ZonaSala)
    (over : Option ZoneOverId) (dragData : Option NewZoneConfig) :
    List ZonaSala :=
  match over with
  | none => zones
  | some ZoneOverId.other => zones
  | some (ZoneOverId.cell x y) =>
      match dragData with
      | none => zones
      | some cfg =>
          if x + cfg.base > gridWidth ∨ y + cfg.altezza > gridHeight then zones
          else zones ++ [⟨x, y, cfg.tipo, cfg.base, cfg.altezza⟩]

/-- C9.  A zone-editor drop either leaves the zone list unchanged — in
particular whenever the rectangle would exceed the grid bounds — or
appends exactly one zone anchored at the drop cell with the template's
size and type; existing zones are never modified, reordered or removed
(the old list is a prefix of the new one). -/
theorem zone_drop_appends_or_leaves (gridWidth gridHeight : Nat)
    (zones : List ZonaSala) (over : Option ZoneOverId)
    (dragData : Option NewZoneConfig) :
    (zonesHandleDragEnd gridWidth gridHeight zones over dragData = zones ∨
      ∃ x y cfg, over = some (ZoneOverId.cell x y) ∧ dragData = some cfg ∧
        x + cfg.base ≤ gridWidth ∧ y + cfg.altezza ≤ gridHeight ∧
        zonesHandleDragEnd gridWidth gridHeight zones over dragData =
          zones ++ [⟨x, y, cfg.tipo, cfg.base, cfg.altezza⟩]) ∧
    (∀ x y cfg, over = some (ZoneOverId.cell x y) → dragData = some cfg →
      gridWidth < x + cfg.base ∨ gridHeight < y + cfg.altezza →
      zonesHandleDragEnd gridWidth gridHeight zones over dragData = zones) ∧
    zones <+: zonesHandleDragEnd gridWidth gridHeight zones over dragData ∧
    (∀ i, i < zones.length →
      (zonesHandleDragEnd gridWidth gridHeight zones over dragData)[i]? =
        zones[i]?) := by
  have hrej : ∀ x y cfg,
      (x + cfg.base > gridWidth ∨ y + cfg.altezza > gridHeight) →
      zonesHandleDragEnd gridWidth gridHeight zones
        (some (ZoneOverId.cell x y)) (some cfg) = zones := by
    intro x y cfg hb
    show (if x + cfg.base > gridWidth ∨ y + cfg.altezza > gridHeight then zones
      else zones ++ [⟨x, y, cfg.tipo, cfg.base, cfg.altezza⟩]) = zones
    rw [if_pos hb]
  have happ : ∀ x y cfg,
      ¬ (x + cfg.base > gridWidth ∨ y + cfg.altezza > gridHeight) →
      zonesHandleDragEnd gridWidth gridHeight zones
        (some (ZoneOverId.cell x y)) (some cfg) =
        zones ++ [⟨x, y, cfg.tipo, cfg.base, cfg.altezza⟩] := by
    intro x y cfg hb
    show (if x + cfg.base > gridWidth ∨ y + cfg.altezza > gridHeight then zones
      else zones ++ [⟨x, y, cfg.tipo, cfg.base, cfg.altezza⟩]) = _
    rw [if_neg hb]
  have hcases :
      zonesHandleDragEnd gridWidth gridHeight zones over dragData = zones ∨
      ∃ x y cfg, over = some (ZoneOverId.cell x y) ∧ dragData = some cfg ∧
        x + cfg.base ≤ gridWidth ∧ y + cfg.altezza ≤ gridHeight ∧
        zonesHandleDragEnd gridWidth gridHeight zones over dragData =
          zones ++ [⟨x, y, cfg.tipo, cfg.base, cfg.altezza⟩] := by
    rcases over with _ | oid
    · exact Or.inl rfl
    rcases oid with ⟨x, y⟩ | _
    · rcases dragData with _ | cfg
      · exact Or.inl rfl
      · by_cases hb : x + cfg.base > gridWidth ∨ y + cfg.altezza > gridHeight
        · exact Or.inl (hrej x y cfg hb)
        · exact Or.inr ⟨x, y, cfg, rfl, rfl, by omega, by omega, happ x y cfg hb⟩
    · exact Or.inl rfl
  have hpre : zones <+: zonesHandleDragEnd gridWidth gridHeight zones over dragData := by
    rcases hcases with heq | ⟨x, y, cfg, _, _, _, _, heq⟩
    · rw [heq]
    · rw [heq]
      exact ⟨[⟨x, y, cfg.tipo, cfg.base, cfg.altezza⟩], rfl⟩
  refine ⟨hcases, ?_, hpre, ?_⟩
  · rintro x y cfg rfl rfl hout
    exact hrej x y cfg (by omega)
  · intro i hi
    obtain ⟨t, ht⟩ := hpre
    rw [← ht, List.getElem?_append, if_pos hi]

/-- Witness for C9: on the 8×6 grid, dropping a 2×2 livable template at
`(7, 5)` exceeds the bounds and leaves the single-zone list unchanged,
and the surviving zone is still at index 0. -/
theorem zone_drop_witness :
    zonesHandleDragEnd 8 6 [⟨0, 0, TipoZona.SPAZIO_VIVIBILE, 4, 4⟩]
      (some (ZoneOverId.cell 7 5)) (some ⟨2, 2, TipoZona.SPAZIO_VIVIBILE⟩) =
      [⟨0, 0, TipoZona.SPAZIO_VIVIBILE, 4, 4⟩] ∧
    (zonesHandleDragEnd 8 6 [⟨0, 0, TipoZona.SPAZIO_VIVIBILE, 4, 4⟩]
      (some (ZoneOverId.cell 7 5)) (some ⟨2, 2, TipoZona.SPAZIO_VIVIBILE⟩))[0]? =
      [(⟨0, 0, TipoZona.SPAZIO_VIVIBILE, 4, 4⟩ : ZonaSala)][0]? :=
  ⟨(zone_drop_appends_or_leaves 8 6 [⟨0, 0, TipoZona.SPAZIO_VIVIBILE, 4, 4⟩]
      (some (ZoneOverId.cell 7 5)) (some ⟨2, 2, TipoZona.SPAZIO_VIVIBILE⟩)).2.1
      7 5 ⟨2, 2, TipoZona.SPAZIO_VIVIBILE⟩ rfl rfl (by decide),
   (zone_drop_appends_or_leaves 8 6 [⟨0, 0, TipoZona.SPAZIO_VIVIBILE, 4, 4⟩]
      (some (ZoneOverId.cell 7 5)) (some ⟨2, 2, TipoZona.SPAZIO_VIVIBILE⟩)).2.2.2
      0 (by decide)⟩

/-- C10.  The sidebar list is shift-filtered and assignment-flagged: the
entries are exactly the fetched reservations whose inferred shift
(PRANZO iff the parsed hour is < 15; CENA at 15:00 and for
missing/unparsable hours) equals the selected shift, in fetch order, and
an entry carries the assigned flag iff its name is in the
already-assigned set. -/
theorem sidebar_list_shift_filtered (reservations : List Reservation)
    (turno : Turno) (tables : List Tavolo) (backendNames : List String)
    (amap : String → List (Nat × Nat)) :
    ((unassignedReservations reservations turno
        (assignedReservationNames tables backendNames) amap).map
      (fun u => u.toReservation)) =
      reservations.filter
        (fun r => getTurnoFromOrario (some r.orario) == turno) ∧
    (∀ u ∈ unassignedReservations reservations turno
        (assignedReservationNames tables backendNames) amap,
      (u.tavoloAssegnato = true ↔
        u.nome ∈ assignedReservationNames tables backendNames)) ∧
    (∀ orario, getTurnoFromOrario orario = Turno.PRANZO ↔
      ∃ hh, orarioHourNumber orario = some hh ∧ hh < 15) ∧
    getTurnoFromOrario none = Turno.CENA ∧
    getTurnoFromOrario (some "15:00") = Turno.CENA := by
  refine ⟨?_, ?_, ?_, rfl, by decide⟩
  · unfold unassignedReservations
    rw [List.map_map]
    exact List.map_id _
  · intro u hu
    unfold unassignedReservations at hu
    rw [List.mem_map] at hu
    obtain ⟨r, _, rfl⟩ := hu
    show (assignedReservationNames tables backendNames).contains r.nome = true ↔
      r.nome ∈ assignedReservationNames tables backendNames
    constructor
    · exact fun h => List.mem_of_elem_eq_true h
    · exact fun h => List.elem_eq_true_of_mem h
  · intro orario
    unfold getTurnoFromOrario
    cases h : orarioHourNumber orario with
    | none =>
        simp only
        constructor
        · intro hfalse; exact absurd hfalse (by simp)
        · rintro ⟨hh, hsome, _⟩
          exact absurd hsome (by simp)
    | some hh =>
        simp only
        constructor
        · intro hp
          refine ⟨hh, rfl, ?_⟩
          by_contra hge
          rw [if_neg hge] at hp
          exact absurd hp (by simp)
        · rintro ⟨hh2, hsome, hlt⟩
          cases hsome
          rw [if_pos hlt]

/-- Witness for C10: with reservations at 12:00, 15:00 and 19:30 and
"Anna" already assigned, the PRANZO sidebar keeps exactly the 12:00
entry, flagged as assigned. -/
theorem sidebar_list_witness :
    ((unassignedReservations
        [⟨"Anna", 4, "2024-05-01", "12:00", none, none⟩,
         ⟨"Bea", 2, "2024-05-01", "15:00", none, none⟩,
         ⟨"Ciro", 3, "2024-05-01", "19:30", none, none⟩] Turno.PRANZO
        (assignedReservationNames [⟨0, 0, TableStatus.RISERVATO, some "Anna"⟩] [])
        (fun _ => [])).map (fun u => u.toReservation)) =
      List.filter
        (fun r => getTurnoFromOrario (some r.orario) == Turno.PRANZO)
        [⟨"Anna", 4, "2024-05-01", "12:00", none, none⟩,
         ⟨"Bea", 2, "2024-05-01", "15:00", none, none⟩,
         ⟨"Ciro", 3, "2024-05-01", "19:30", none, none⟩] ∧
    ((UILayoutReservation.mk ⟨"Anna", 4, "2024-05-01", "12:00", none, none⟩
        4 true none).tavoloAssegnato = true ↔
      (UILayoutReservation.mk ⟨"Anna", 4, "2024-05-01", "12:00", none, none⟩
        4 true none).nome ∈
        assignedReservationNames [⟨0, 0, TableStatus.RISERVATO, some "Anna"⟩] []) :=
  ⟨(sidebar_list_shift_filtered
      [⟨"Anna", 4, "2024-05-01", "12:00", none, none⟩,
       ⟨"Bea", 2, "2024-05-01", "15:00", none, none⟩,
       ⟨"Ciro", 3, "2024-05-01", "19:30", none, none⟩] Turno.PRANZO
      [⟨0, 0, TableStatus.RISERVATO, some "Anna"⟩] [] (fun _ => [])).1,
   (sidebar_list_shift_filtered
      [⟨"Anna", 4, "2024-05-01", "12:00", none, none⟩,
       ⟨"Bea", 2, "2024-05-01", "15:00", none, none⟩,
       ⟨"Ciro", 3, "2024-05-01", "19:30", none, none⟩] Turno.PRANZO
      [⟨0, 0, TableStatus.RISERVATO, some "Anna"⟩] [] (fun _ => [])).2.1
      (UILayoutReservation.mk ⟨"Anna", 4, "2024-05-01", "12:00", none, none⟩
        4 true none) (by decide)⟩

end Risto
